import Mathlib

/-!
Verification of the callsign structural parser (`src/lib/parseCallsign.ts`).

The TypeScript source is shallowly embedded: the JS regular expressions are
implemented as explicit matchers that follow the regex engine's backtracking
order (ordered alternatives, greedy quantifiers, first full match wins), the
`ParsedCallsign` record becomes a structure of `Option` fields (`none` models
a JS field that is not set), and JS truthiness is modelled explicitly (the
empty string is falsy; arrays are always truthy).

The source field `prefix` is renamed `prefixStr` because `prefix` is a
reserved keyword in Lean; every other name follows the source.
-/

/-! ## Character classes used by the source regexes -/

def isUp (c : Char) : Bool := 'A' ≤ c && c ≤ 'Z'

def isDig (c : Char) : Bool := '0' ≤ c && c ≤ '9'

/-- The `[A-Z0-9]` class. -/
def isAlnumUp (c : Char) : Bool := isUp c || isDig c

/-- The `[A-Z0-9/]` class of the postindicator group. -/
def isG4Class (c : Char) : Bool := isAlnumUp c || c = '/'

/-- The `[A-Z0-9-]` class of the SSID regex. -/
def isSsidClass (c : Char) : Bool := isAlnumUp c || c = '-'

/-- Whitespace removed by `String.prototype.trim` (ASCII part). -/
def isWsChar (c : Char) : Bool :=
  c = ' ' || c = '\t' || c = '\n' || c = '\r' || c = '\x0b' || c = '\x0c'

/-! ## JS string primitives -/

/-- Models `callsign.trim()`. -/
def jsTrim (s : String) : String :=
  ⟨((s.data.dropWhile isWsChar).reverse.dropWhile isWsChar).reverse⟩

def jsUpperChar (c : Char) : Char :=
  if 'a' ≤ c && c ≤ 'z' then Char.ofNat (c.toNat - 32) else c

/-- Models `s.toUpperCase()` (ASCII range, which is all the grammar accepts). -/
def jsToUpperStr (s : String) : String := ⟨s.data.map jsUpperChar⟩

/-- Models `callsign.trim().toUpperCase()`. -/
def jsNormalize (s : String) : String := jsToUpperStr (jsTrim s)

/-- JS truthiness of an optional string field: `undefined` and `""` are falsy. -/
def jsTruthyStr (o : Option String) : Bool :=
  match o with
  | none => false
  | some s => !(s == "")

/-- JS string coercion used by `info.ituPrefix + info.digit` when
`info.ituPrefix` is `undefined`: it becomes the string `"undefined"`. -/
def jsUndefStr (o : Option String) : String :=
  match o with
  | some s => s
  | none => "undefined"

/-- Models `s.slice(0, s.length - 1)`. -/
def sliceDropLast (s : String) : String := ⟨s.data.dropLast⟩

/-- Models `s.slice(1, s.length)`. -/
def sliceDropFirst (s : String) : String := ⟨s.data.drop 1⟩

def splitSlashAux : List Char → List Char → List String
  | [], acc => [⟨acc.reverse⟩]
  | c :: rest, acc =>
    if c = '/' then ⟨acc.reverse⟩ :: splitSlashAux rest []
    else splitSlashAux rest (c :: acc)

/-- Models `s.split('/')` (JS semantics: empty segments are kept). -/
def splitSlashes (s : String) : List String := splitSlashAux s.data []

/-! ## The entity table

The data file `src/data/entityPrefixes.json` is not among the sources. -/

/-- Modelled from the spec: the Entity Table data file
(`src/data/entityPrefixes.json`, "a static, version-controlled list of known
entity-prefix strings, flat array of uppercase strings") is missing from the
sources; we model it by the entity-prefix strings the spec and the source
comments name as table members ("There's a few entity prefixes that look like
callsigns but are not ... For example `K0H/KH0` or `AA7V/VP2V`"). -/
def KNOWN_ENTITIES_ARRAY : List String := ["K0H", "VP2V"]

/-- The `KNOWN_ENTITIES` hash: keys are the array entries uppercased at load
time; lookup is an exact (case-sensitive) key test. -/
def KNOWN_ENTITIES (s : String) : Bool :=
  (KNOWN_ENTITIES_ARRAY.map jsToUpperStr).contains s

/-! ## The parsed record -/

/-- The `ParsedCallsign` record.  A JS field that is not set is `none`;
`digit` may be set to the empty string, which is distinct from absent.
`prefixStr` models the source field `prefix` (a Lean keyword). -/
structure ParsedCallsign where
  call : Option String := none
  baseCall : Option String := none
  prefixStr : Option String := none
  extendedPrefix : Option String := none
  ituPrefix : Option String := none
  digit : Option String := none
  preindicator : Option String := none
  postindicators : Option (List String) := none
  prefixOverride : Option String := none
  indicators : Option (List String) := none
  ssid : Option String := none
deriving Repr, DecidableEq

/-- The empty record `{}`. -/
def emptyInfo : ParsedCallsign := {}

/-! ## `SSID_REGEXP`, the unanchored regex `-[A-Z0-9-]{1,}` (first match)

`callsign.match` finds the leftmost `-` followed by at least one class
character; the quantifier is greedy, so the match runs to the end of the
maximal class run.  `callsign.replace(ssid[0], '')` removes the first
occurrence of the matched text, which is that same span (an earlier
occurrence of the literal would itself have been an earlier regex match). -/

/-- Split a string at its first `SSID_REGEXP` match: returns
`(before, match, after)`, where `match` starts with `-`. -/
def ssidSplit : List Char → Option (List Char × List Char × List Char)
  | [] => none
  | c :: rest =>
    if c = '-' then
      if (rest.takeWhile isSsidClass).isEmpty then
        (ssidSplit rest).map (fun x => (c :: x.1, x.2))
      else
        some ([], '-' :: rest.takeWhile isSsidClass,
          rest.drop (rest.takeWhile isSsidClass).length)
    else (ssidSplit rest).map (fun x => (c :: x.1, x.2))

/-- The value stored as `info.ssid` (`ssid[0].slice(1)`), when a match exists. -/
def ssidValue (s : String) : Option String :=
  match ssidSplit s.data with
  | some (_, m, _) => some ⟨m.drop 1⟩
  | none => none

/-- Models `callsign.replace(ssid[0], '')` — the input with the first SSID match
removed (the input itself when there is no match). -/
def ssidStripped (s : String) : String :=
  match ssidSplit s.data with
  | some (b, _, a) => ⟨b ++ a⟩
  | none => s

/-! ## `CALLSIGN_REGEXP`

`/^([A-Z0-9]+\/){0,1}(5U[A-Z]*|[0-9][A-Z]{1,2}[0-9]|[ACDEHJLOPQSTUVXYZ][0-9]|[A-Z]{1,2}[0-9])([A-Z0-9]+)(\/[A-Z0-9/]+){0,1}$/`

Backtracking notes, justifying the deterministic shape of the matcher:
* group 3 (`[A-Z0-9]+`) is greedy; a shorter take leaves an alphanumeric as
  the next character, which neither group 4 (which must start with `/`) nor
  the `$` anchor accepts, so only the maximal alphanumeric run can succeed;
* group 4 then succeeds exactly when the remainder is empty, or is `/`
  followed by a nonempty run of `[A-Z0-9/]` reaching the end;
* in group 1, `[A-Z0-9]+` greedy must be followed by `/`; any shorter take
  is followed by an alphanumeric, so the only candidate is the maximal
  leading alphanumeric run, tried first (then group 1 absent). -/

structure CallsignParts where
  g1 : Option String
  g2 : String
  g3 : String
  g4 : Option String
deriving Repr, DecidableEq

/-- Groups 3 and 4 after a candidate group 2. -/
def matchG3G4 (rest : List Char) : Option (List Char × Option (List Char)) :=
  let m := rest.takeWhile isAlnumUp
  if m.isEmpty then none
  else
    match rest.drop m.length with
    | [] => some (m, none)
    | '/' :: r => if !r.isEmpty && r.all isG4Class then some (m, some ('/' :: r)) else none
    | _ => none

/-- Commit to a group-2 candidate and match the rest of the string. -/
def tryCore (g2 rest : List Char) : Option (List Char × List Char × Option (List Char)) :=
  match matchG3G4 rest with
  | some (g3, g4) => some (g2, g3, g4)
  | none => none

/-- Alternative `5U[A-Z]*`: greedy, so letter counts are tried longest first. -/
def try5U (u ls : List Char) : Nat → Option (List Char × List Char × Option (List Char))
  | 0 => tryCore ['5', 'U'] u
  | Nat.succ k =>
    match tryCore ('5' :: 'U' :: ls.take (k + 1)) (u.drop (k + 1)) with
    | some r => some r
    | none => try5U u ls k

def altFiveU (t : List Char) : Option (List Char × List Char × Option (List Char)) :=
  match t with
  | '5' :: 'U' :: u => try5U u (u.takeWhile isUp) (u.takeWhile isUp).length
  | _ => none

/-- The two-letter attempt of `[0-9][A-Z]{1,2}[0-9]`. -/
def altDigitLettersTwo (d l1 : Char) (rest : List Char) :
    Option (List Char × List Char × Option (List Char)) :=
  match rest with
  | l2 :: d2 :: r2 => if isUp l2 && isDig d2 then tryCore [d, l1, l2, d2] r2 else none
  | _ => none

/-- Alternative `[0-9][A-Z]{1,2}[0-9]`: two letters tried before one. -/
def altDigitLetters (t : List Char) : Option (List Char × List Char × Option (List Char)) :=
  match t with
  | d :: l1 :: rest =>
    if isDig d && isUp l1 then
      match altDigitLettersTwo d l1 rest with
      | some r => some r
      | none =>
        match rest with
        | d2 :: r => if isDig d2 then tryCore [d, l1, d2] r else none
        | _ => none
    else none
  | _ => none

/-- The class `[ACDEHJLOPQSTUVXYZ]`. -/
def specialLetters : List Char :=
  ['A', 'C', 'D', 'E', 'H', 'J', 'L', 'O', 'P', 'Q', 'S', 'T', 'U', 'V', 'X', 'Y', 'Z']

def altSpecialDigit (t : List Char) : Option (List Char × List Char × Option (List Char)) :=
  match t with
  | c :: d :: r => if specialLetters.contains c && isDig d then tryCore [c, d] r else none
  | _ => none

/-- The two-letter attempt of `[A-Z]{1,2}[0-9]`. -/
def altLettersDigitTwo (t : List Char) : Option (List Char × List Char × Option (List Char)) :=
  match t with
  | a :: b :: c :: r => if isUp a && isUp b && isDig c then tryCore [a, b, c] r else none
  | _ => none

/-- Alternative `[A-Z]{1,2}[0-9]`: two letters tried before one. -/
def altLettersDigit (t : List Char) : Option (List Char × List Char × Option (List Char)) :=
  match altLettersDigitTwo t with
  | some r => some r
  | none =>
    match t with
    | a :: b :: r => if isUp a && isDig b then tryCore [a, b] r else none
    | _ => none

/-- Group 2 alternatives in source order. -/
def matchG2 (t : List Char) : Option (List Char × List Char × Option (List Char)) :=
  match altFiveU t with
  | some r => some r
  | none =>
    match altDigitLetters t with
    | some r => some r
    | none =>
      match altSpecialDigit t with
      | some r => some r
      | none => altLettersDigit t

/-- Models `callsign.match(CALLSIGN_REGEXP)`: group 1 (with its trailing `/`) is
tried first, then the group-1-absent alternative. -/
def callsignMatch (s : String) : Option CallsignParts :=
  let l := s.data
  let run := l.takeWhile isAlnumUp
  let withPre : Option CallsignParts :=
    if run.isEmpty then none
    else
      match l.drop run.length with
      | '/' :: rest =>
        match matchG2 rest with
        | some (g2, g3, g4) =>
          some (CallsignParts.mk (some ⟨run ++ ['/']⟩) ⟨g2⟩ ⟨g3⟩ (g4.map String.mk))
        | none => none
      | _ => none
  match withPre with
  | some r => some r
  | none =>
    match matchG2 l with
    | some (g2, g3, g4) => some (CallsignParts.mk none ⟨g2⟩ ⟨g3⟩ (g4.map String.mk))
    | none => none

/-! ## `PREFIX_REGEXP`

`/^(3D[A-Z0-9]|5U[A-Z]|[0-9][A-Z]{1,2}|[ACDEHJLOPQSTUVXYZ][0-9]|[A-Z]{1,2})([0-9]{0,1})([0-9]*)/`

No end anchor and groups 2 and 3 can be empty, so the first group-1
alternative (in order, with greedy counted repetitions) that matches wins
outright; groups 2 and 3 then take what digits follow. -/

def altP1 (l : List Char) : Option (List Char × List Char) :=
  match l with
  | '3' :: 'D' :: c :: r => if isAlnumUp c then some (['3', 'D', c], r) else none
  | _ => none

def altP2 (l : List Char) : Option (List Char × List Char) :=
  match l with
  | '5' :: 'U' :: c :: r => if isUp c then some (['5', 'U', c], r) else none
  | _ => none

def altP3 (l : List Char) : Option (List Char × List Char) :=
  match l with
  | d :: a :: b :: r => if isDig d && isUp a && isUp b then some ([d, a, b], r) else none
  | _ => none

def altP4 (l : List Char) : Option (List Char × List Char) :=
  match l with
  | d :: a :: r => if isDig d && isUp a then some ([d, a], r) else none
  | _ => none

def altP5 (l : List Char) : Option (List Char × List Char) :=
  match l with
  | c :: d :: r => if specialLetters.contains c && isDig d then some ([c, d], r) else none
  | _ => none

def altP6 (l : List Char) : Option (List Char × List Char) :=
  match l with
  | a :: b :: r => if isUp a && isUp b then some ([a, b], r) else none
  | _ => none

def altP7 (l : List Char) : Option (List Char × List Char) :=
  match l with
  | a :: r => if isUp a then some ([a], r) else none
  | _ => none

def matchPrefixAlt (l : List Char) : Option (List Char × List Char) :=
  match altP1 l with
  | some r => some r
  | none =>
    match altP2 l with
    | some r => some r
    | none =>
      match altP3 l with
      | some r => some r
      | none =>
        match altP4 l with
        | some r => some r
        | none =>
          match altP5 l with
          | some r => some r
          | none =>
            match altP6 l with
            | some r => some r
            | none => altP7 l

/-- Models `callsign.match(PREFIX_REGEXP)`: groups `(entity letters, separating
digit, trailing digits)`. -/
def matchPrefixRegexp (s : String) : Option (String × String × String) :=
  match matchPrefixAlt s.data with
  | none => none
  | some (g1, r) =>
    match r with
    | c :: t =>
      if isDig c then some (⟨g1⟩, ⟨[c]⟩, ⟨t.takeWhile isDig⟩)
      else some (⟨g1⟩, "", ⟨r.takeWhile isDig⟩)
    | [] => some (⟨g1⟩, "", "")

/-- Models `info.ituPrefix?.startsWith('5U')` (the field is always set when this is
evaluated, so only the string test is modelled). -/
def startsWith5U (s : String) : Bool :=
  match s.data with
  | '5' :: 'U' :: _ => true
  | _ => false

/-! ## Remaining small regexes and lists -/

/-- Models `DIGITS_REGEXP`, the regex `^[0-9]+$`. -/
def isAllDigits (s : String) : Bool := !s.data.isEmpty && s.data.all isDig

def sufHeadAKNW (c : Char) : Bool := c = 'A' || c = 'K' || c = 'N' || c = 'W'

def sufLHPG (c : Char) : Bool := c = 'L' || c = 'H' || c = 'P' || c = 'G'

def sufAEYO (c : Char) : Bool := c = 'A' || c = 'E' || c = 'Y' || c = 'O'

def sufABC (c : Char) : Bool := c = 'A' || c = 'B' || c = 'C'

def allDigitsL (l : List Char) : Bool := l.all isDig

/-- Models `SUFFIXED_COUNTRY_REGEXP`, the regex `^([AKNW][LHPG]|K|W|V[AEYO]|CY|O[ABC]|VP9)[0-9]*$`:
an alternative succeeds when the rest of the string is all digits. -/
def matchesSuffixedCountry (s : String) : Bool :=
  let l := s.data
  (match l with | a :: b :: r => sufHeadAKNW a && sufLHPG b && allDigitsL r | _ => false) ||
  (match l with | 'K' :: r => allDigitsL r | _ => false) ||
  (match l with | 'W' :: r => allDigitsL r | _ => false) ||
  (match l with | 'V' :: b :: r => sufAEYO b && allDigitsL r | _ => false) ||
  (match l with | 'C' :: 'Y' :: r => allDigitsL r | _ => false) ||
  (match l with | 'O' :: b :: r => sufABC b && allDigitsL r | _ => false) ||
  (match l with | 'V' :: 'P' :: '9' :: r => allDigitsL r | _ => false)

def KNOWN_INDICATORS : List String :=
  ["QRP", "P", "M", "AM", "MM", "AA", "AG", "AE", "KT", "R"]

/-! ## `processPrefix` -/

/-- Models `processPrefix(callsign, info)`.  Sets `ituPrefix` and `digit` from the
match, then `prefix` (verbatim on an exact Entity Table hit, else
`ituPrefix + digit`, with `extendedPrefix` when trailing digits remain), and
finally truncates a `5U…` `ituPrefix` to `5U` (Niger special case). -/
def processPrefix (callsign : String) (info : ParsedCallsign) : ParsedCallsign :=
  match matchPrefixRegexp callsign with
  | none => info
  | some (g1, g2, g3) =>
    let i1 := { info with ituPrefix := some g1, digit := some g2 }
    let i2 :=
      if KNOWN_ENTITIES (jsToUpperStr callsign) then { i1 with prefixStr := some callsign }
      else
        let ia := { i1 with prefixStr := some (g1 ++ g2) }
        if g3 ≠ "" then { ia with extendedPrefix := some (g1 ++ g2 ++ g3) } else ia
    if startsWith5U g1 then { i2 with ituPrefix := some "5U" } else i2

/-! ## `processPostindicator` -/

/-- Models `processPostindicator(indicator, info)`. -/
def processPostindicator (indicator : String) (info : ParsedCallsign) : ParsedCallsign :=
  if isAllDigits indicator then
    { info with digit := some indicator,
                prefixStr := some (jsUndefStr info.ituPrefix ++ indicator) }
  else if matchesSuffixedCountry indicator then
    processPrefix indicator { info with prefixOverride := some indicator }
  else if KNOWN_INDICATORS.contains indicator then
    { info with indicators := some (info.indicators.getD [] ++ [indicator]) }
  else if KNOWN_ENTITIES indicator then
    processPrefix indicator { info with prefixOverride := some indicator }
  else if KNOWN_ENTITIES ((processPrefix indicator emptyInfo).ituPrefix.getD "") then
    processPrefix indicator { info with prefixOverride := some indicator }
  else info

/-! ## `parseCallsign` -/

/-- The SSID extraction step: sets `info.ssid` when `SSID_REGEXP` matches. -/
def applySsid (cs1 : String) (info : ParsedCallsign) : ParsedCallsign :=
  match ssidValue cs1 with
  | some v => { info with ssid := some v }
  | none => info

/-- The body of the `if (callsignParts)` block up to (but excluding) the
postindicator loop: sets `call`, `preindicator`, `postindicators`, then
resolves the base call (with the misplaced-entity correction) and the
initial prefix. -/
def applyMatch (cs2 : String) (parts : CallsignParts) (info : ParsedCallsign) : ParsedCallsign :=
  let i1 := { info with call := some cs2 }
  let i2 :=
    match parts.g1 with
    | some p => { i1 with preindicator := some (sliceDropLast p) }
    | none => i1
  let i3 :=
    match parts.g4 with
    | some q => { i2 with postindicators := some (splitSlashes (sliceDropFirst q)) }
    | none => i2
  if parts.g2 ≠ "" then
    let baseCall := parts.g2 ++ parts.g3
    if KNOWN_ENTITIES baseCall && jsTruthyStr i3.preindicator then
      { i3 with baseCall := i3.preindicator,
                postindicators := some (i3.postindicators.getD [] ++ [baseCall]),
                preindicator := none }
    else
      let i4 := { i3 with baseCall := some baseCall }
      if jsTruthyStr i4.preindicator then
        processPrefix (i4.preindicator.getD "") { i4 with prefixOverride := i4.preindicator }
      else processPrefix baseCall i4
  else i3

/-- The postindicator loop. -/
def runPostindicators (info : ParsedCallsign) : ParsedCallsign :=
  (info.postindicators.getD []).foldl (fun acc t => processPostindicator t acc) info

/-- Models `parseCallsign(callsign, info)`.  `none` models a `null`/`undefined`
argument; JS `!callsign` is also true for the empty string. -/
def parseCallsign (callsign : Option String) (info : ParsedCallsign) : ParsedCallsign :=
  match callsign with
  | none => info
  | some cs0 =>
    if cs0 = "" then info
    else
      let cs1 := jsNormalize cs0
      let info1 := applySsid cs1 info
      let cs2 := ssidStripped cs1
      match callsignMatch cs2 with
      | none => info1
      | some parts => runPostindicators (applyMatch cs2 parts info1)

/-! ## `mergeCallsignInfo`

`CALLSIGN_INFO_KEYS = ['call', 'baseCall', 'prefix', 'ituPrefix', 'digit',
'preindicator', 'postindicators', 'prefixOverride', 'indicators', 'ssid']`
(note: `extendedPrefix` is not in the list).  The `options.destination`
parameter defaults to a copy of `base`; we model that default path. -/

/-- One step of the key loop for a string-valued key:
`if (newInfo[key]) result[key] = newInfo[key] else if
(base.hasOwnProperty(key)) delete result[key]`. -/
def mergeFieldStr (b n : Option String) : Option String :=
  if jsTruthyStr n then n else if b.isSome then none else b

/-- Same step for an array-valued key: a JS array is always truthy. -/
def mergeFieldList (b n : Option (List String)) : Option (List String) :=
  if n.isSome then n else if b.isSome then none else b

/-- Models `mergeCallsignInfo(base, newInfo)` with the default destination
(`{ ...base }`); only the keys in `CALLSIGN_INFO_KEYS` are touched. -/
def mergeCallsignInfo (base newInfo : ParsedCallsign) : ParsedCallsign :=
  { base with
    call := mergeFieldStr base.call newInfo.call
    baseCall := mergeFieldStr base.baseCall newInfo.baseCall
    prefixStr := mergeFieldStr base.prefixStr newInfo.prefixStr
    ituPrefix := mergeFieldStr base.ituPrefix newInfo.ituPrefix
    digit := mergeFieldStr base.digit newInfo.digit
    preindicator := mergeFieldStr base.preindicator newInfo.preindicator
    postindicators := mergeFieldList base.postindicators newInfo.postindicators
    prefixOverride := mergeFieldStr base.prefixOverride newInfo.prefixOverride
    indicators := mergeFieldList base.indicators newInfo.indicators
    ssid := mergeFieldStr base.ssid newInfo.ssid }

/-! ## Spec-side definitions used for comparison -/

def specStrip : List Char → List Char
  | [] => []
  | c :: rest =>
    if c = '-' && !rest.isEmpty && rest.all isSsidClass then []
    else c :: specStrip rest

/-- Follows the spec's words (for comparison with the code's behaviour):
"normalization is trimming, uppercasing, and removing a trailing SSID suffix
(a literal `-` followed by one or more alphanumerics/hyphens at the end of
the string)". -/
def specNormalize (s : String) : String := ⟨specStrip (jsNormalize s).data⟩

/-- The list of postindicator tokens derived from group 4. -/
def postsOfOpt (q : Option String) : List String :=
  match q with
  | some t => splitSlashes (sliceDropFirst t)
  | none => []

/-- A string field is "clean" when it is absent or a non-empty string (never
a set-but-falsy empty string). -/
def okS (o : Option String) : Prop := o ≠ some ""

/-! # Helper lemmas -/

theorem mergeFieldStr_eq (b n : Option String) :
    mergeFieldStr b n = if jsTruthyStr n then n else none := by
  cases b <;> simp [mergeFieldStr]

theorem mergeFieldList_eq (b n : Option (List String)) :
    mergeFieldList b n = n := by
  cases b <;> cases n <;> simp [mergeFieldList]

theorem okS_if_truthy (o : Option String) (h : okS o) :
    (if jsTruthyStr o then o else none) = o := by
  cases o with
  | none => simp [jsTruthyStr]
  | some s =>
    have hs : s ≠ "" := fun he => h (by rw [he])
    simp [jsTruthyStr, hs]

/-- Canonical form of the merge: each key of `CALLSIGN_INFO_KEYS` comes from
`newInfo` when truthy there and is absent otherwise; `extendedPrefix` is not
in the key list and is carried over from the base. -/
theorem mergeCallsignInfo_eq (b n : ParsedCallsign) :
    mergeCallsignInfo b n =
      { call := if jsTruthyStr n.call then n.call else none
        baseCall := if jsTruthyStr n.baseCall then n.baseCall else none
        prefixStr := if jsTruthyStr n.prefixStr then n.prefixStr else none
        extendedPrefix := b.extendedPrefix
        ituPrefix := if jsTruthyStr n.ituPrefix then n.ituPrefix else none
        digit := if jsTruthyStr n.digit then n.digit else none
        preindicator := if jsTruthyStr n.preindicator then n.preindicator else none
        postindicators := n.postindicators
        prefixOverride := if jsTruthyStr n.prefixOverride then n.prefixOverride else none
        indicators := n.indicators
        ssid := if jsTruthyStr n.ssid then n.ssid else none } := by
  cases b; cases n
  simp [mergeCallsignInfo, mergeFieldStr_eq, mergeFieldList_eq]

theorem strMk_ne_empty (l : List Char) (h : l ≠ []) : (⟨l⟩ : String) ≠ "" := by
  intro he
  exact h (congrArg String.data he)

theorem strAppend_ne_empty_right (a b : String) (h : b ≠ "") : a ++ b ≠ "" := by
  cases a with
  | mk la =>
    cases b with
    | mk lb =>
      intro he
      have hl : la ++ lb = [] := congrArg String.data he
      have hb : lb = [] := (List.append_eq_nil.mp hl).2
      exact h (by rw [hb])

theorem matchG3G4_sound (rest g3 : List Char) (g4 : Option (List Char))
    (h : matchG3G4 rest = some (g3, g4)) :
    g3 ≠ [] ∧ ∀ q, g4 = some q → q ≠ [] := by
  simp only [matchG3G4] at h
  split at h
  · simp at h
  · rename_i hne
    have hm : rest.takeWhile isAlnumUp ≠ [] := by
      intro hg
      rw [hg] at hne
      simp at hne
    split at h
    · rw [Option.some_inj, Prod.mk.injEq] at h
      obtain ⟨h1, h2⟩ := h
      subst h1
      subst h2
      exact ⟨hm, fun q hq => Option.noConfusion hq⟩
    · rename_i r hr
      split at h
      · rw [Option.some_inj, Prod.mk.injEq] at h
        obtain ⟨h1, h2⟩ := h
        subst h1
        subst h2
        refine ⟨hm, fun q hq => ?_⟩
        rw [Option.some_inj] at hq
        subst hq
        exact List.cons_ne_nil _ _
      · simp at h
    · simp at h

theorem tryCore_sound (g2 rest a b : List Char) (c : Option (List Char))
    (h : tryCore g2 rest = some (a, b, c)) :
    a = g2 ∧ b ≠ [] ∧ ∀ q, c = some q → q ≠ [] := by
  unfold tryCore at h
  split at h
  · rename_i g3 g4 hm
    rw [Option.some_inj, Prod.mk.injEq, Prod.mk.injEq] at h
    obtain ⟨h1, h2, h3⟩ := h
    subst h1
    subst h2
    subst h3
    obtain ⟨hb, hc⟩ := matchG3G4_sound _ _ _ hm
    exact ⟨rfl, hb, hc⟩
  · simp at h

theorem try5U_sound (u ls : List Char) (k : Nat) (g2 g3 : List Char) (g4 : Option (List Char))
    (h : try5U u ls k = some (g2, g3, g4)) :
    g2 ≠ [] ∧ g3 ≠ [] ∧ ∀ q, g4 = some q → q ≠ [] := by
  induction k with
  | zero =>
    unfold try5U at h
    obtain ⟨ha, hb, hc⟩ := tryCore_sound _ _ _ _ _ h
    exact ⟨by rw [ha]; exact List.cons_ne_nil _ _, hb, hc⟩
  | succ k ih =>
    unfold try5U at h
    split at h
    · rename_i r hr
      rw [Option.some_inj] at h
      rw [h] at hr
      obtain ⟨ha, hb, hc⟩ := tryCore_sound _ _ _ _ _ hr
      exact ⟨by rw [ha]; exact List.cons_ne_nil _ _, hb, hc⟩
    · exact ih h

theorem altFiveU_sound (t g2 g3 : List Char) (g4 : Option (List Char))
    (h : altFiveU t = some (g2, g3, g4)) :
    g2 ≠ [] ∧ g3 ≠ [] ∧ ∀ q, g4 = some q → q ≠ [] := by
  unfold altFiveU at h
  split at h
  · exact try5U_sound _ _ _ _ _ _ h
  · simp at h

theorem altDigitLettersTwo_sound (d l1 : Char) (rest g2 g3 : List Char)
    (g4 : Option (List Char)) (h : altDigitLettersTwo d l1 rest = some (g2, g3, g4)) :
    g2 ≠ [] ∧ g3 ≠ [] ∧ ∀ q, g4 = some q → q ≠ [] := by
  unfold altDigitLettersTwo at h
  split at h
  · split at h
    · obtain ⟨ha, hb, hc⟩ := tryCore_sound _ _ _ _ _ h
      exact ⟨by rw [ha]; exact List.cons_ne_nil _ _, hb, hc⟩
    · simp at h
  · simp at h

theorem altDigitLetters_sound (t g2 g3 : List Char) (g4 : Option (List Char))
    (h : altDigitLetters t = some (g2, g3, g4)) :
    g2 ≠ [] ∧ g3 ≠ [] ∧ ∀ q, g4 = some q → q ≠ [] := by
  unfold altDigitLetters at h
  split at h
  · rename_i d l1 rest
    split at h
    · split at h
      · rename_i r hr
        rw [Option.some_inj] at h
        rw [h] at hr
        exact altDigitLettersTwo_sound _ _ _ _ _ _ hr
      · split at h
        · split at h
          · obtain ⟨ha, hb, hc⟩ := tryCore_sound _ _ _ _ _ h
            exact ⟨by rw [ha]; exact List.cons_ne_nil _ _, hb, hc⟩
          · simp at h
        · simp at h
    · simp at h
  · simp at h

theorem altSpecialDigit_sound (t g2 g3 : List Char) (g4 : Option (List Char))
    (h : altSpecialDigit t = some (g2, g3, g4)) :
    g2 ≠ [] ∧ g3 ≠ [] ∧ ∀ q, g4 = some q → q ≠ [] := by
  unfold altSpecialDigit at h
  split at h
  · split at h
    · obtain ⟨ha, hb, hc⟩ := tryCore_sound _ _ _ _ _ h
      exact ⟨by rw [ha]; exact List.cons_ne_nil _ _, hb, hc⟩
    · simp at h
  · simp at h

theorem altLettersDigitTwo_sound (t g2 g3 : List Char) (g4 : Option (List Char))
    (h : altLettersDigitTwo t = some (g2, g3, g4)) :
    g2 ≠ [] ∧ g3 ≠ [] ∧ ∀ q, g4 = some q → q ≠ [] := by
  unfold altLettersDigitTwo at h
  split at h
  · split at h
    · obtain ⟨ha, hb, hc⟩ := tryCore_sound _ _ _ _ _ h
      exact ⟨by rw [ha]; exact List.cons_ne_nil _ _, hb, hc⟩
    · simp at h
  · simp at h

theorem altLettersDigit_sound (t g2 g3 : List Char) (g4 : Option (List Char))
    (h : altLettersDigit t = some (g2, g3, g4)) :
    g2 ≠ [] ∧ g3 ≠ [] ∧ ∀ q, g4 = some q → q ≠ [] := by
  unfold altLettersDigit at h
  split at h
  · rename_i r hr
    rw [Option.some_inj] at h
    rw [h] at hr
    exact altLettersDigitTwo_sound _ _ _ _ hr
  · split at h
    · split at h
      · obtain ⟨ha, hb, hc⟩ := tryCore_sound _ _ _ _ _ h
        exact ⟨by rw [ha]; exact List.cons_ne_nil _ _, hb, hc⟩
      · simp at h
    · simp at h

theorem matchG2_sound (t g2 g3 : List Char) (g4 : Option (List Char))
    (h : matchG2 t = some (g2, g3, g4)) :
    g2 ≠ [] ∧ g3 ≠ [] ∧ ∀ q, g4 = some q → q ≠ [] := by
  unfold matchG2 at h
  split at h
  · rename_i r hr
    rw [Option.some_inj] at h
    rw [h] at hr
    exact altFiveU_sound _ _ _ _ hr
  · split at h
    · rename_i r hr
      rw [Option.some_inj] at h
      rw [h] at hr
      exact altDigitLetters_sound _ _ _ _ hr
    · split at h
      · rename_i r hr
        rw [Option.some_inj] at h
        rw [h] at hr
        exact altSpecialDigit_sound _ _ _ _ hr
      · exact altLettersDigit_sound _ _ _ _ h

theorem callsignMatch_sound (s : String) (parts : CallsignParts)
    (h : callsignMatch s = some parts) :
    parts.g2 ≠ "" ∧ ∀ p, parts.g1 = some p → sliceDropLast p ≠ "" := by
  simp only [callsignMatch] at h
  split at h
  · rename_i r hr
    rw [Option.some_inj] at h
    rw [h] at hr
    split at hr
    · simp at hr
    · rename_i hrun
      split at hr
      · rename_i rest heq
        split at hr
        · rename_i g2 g3 g4 hg2
          rw [Option.some_inj] at hr
          rw [← hr]
          obtain ⟨h2, _, _⟩ := matchG2_sound _ _ _ _ hg2
          refine ⟨strMk_ne_empty _ h2, fun p hp => ?_⟩
          rw [Option.some_inj] at hp
          rw [← hp]
          have hd : sliceDropLast ⟨s.data.takeWhile isAlnumUp ++ ['/']⟩ =
              ⟨s.data.takeWhile isAlnumUp⟩ := by
            simp [sliceDropLast]
          rw [hd]
          exact strMk_ne_empty _ (by simpa using hrun)
        · simp at hr
      · simp at hr
  · split at h
    · rename_i g2 g3 g4 hg2
      rw [Option.some_inj] at h
      rw [← h]
      obtain ⟨h2, _, _⟩ := matchG2_sound _ _ _ _ hg2
      exact ⟨strMk_ne_empty _ h2, fun p hp => by simp at hp⟩
    · simp at h

theorem ssidSplit_sound (l : List Char) :
    ∀ b m a, ssidSplit l = some (b, m, a) → ∃ run, m = '-' :: run ∧ run ≠ [] := by
  induction l with
  | nil => intro b m a h; simp [ssidSplit] at h
  | cons c rest ih =>
    intro b m a h
    simp only [ssidSplit] at h
    split at h
    · split at h
      · cases hp : ssidSplit rest with
        | none => rw [hp] at h; simp at h
        | some x =>
          obtain ⟨x1, x2, x3⟩ := x
          rw [hp] at h
          simp only [Option.map_some'] at h
          rw [Option.some_inj, Prod.mk.injEq, Prod.mk.injEq] at h
          obtain ⟨_, h2, h3⟩ := h
          subst h2
          subst h3
          exact ih _ _ _ hp
      · rename_i hrun
        rw [Option.some_inj, Prod.mk.injEq, Prod.mk.injEq] at h
        obtain ⟨_, h2, _⟩ := h
        refine ⟨rest.takeWhile isSsidClass, h2.symm, by simpa using hrun⟩
    · cases hp : ssidSplit rest with
      | none => rw [hp] at h; simp at h
      | some x =>
        obtain ⟨x1, x2, x3⟩ := x
        rw [hp] at h
        simp only [Option.map_some'] at h
        rw [Option.some_inj, Prod.mk.injEq, Prod.mk.injEq] at h
        obtain ⟨_, h2, h3⟩ := h
        subst h2
        subst h3
        exact ih _ _ _ hp

theorem ssidValue_ok (s : String) (v : String) (h : ssidValue s = some v) : v ≠ "" := by
  unfold ssidValue at h
  split at h
  · rename_i b m a hm
    obtain ⟨run, hrun, hne⟩ := ssidSplit_sound _ _ _ _ hm
    rw [Option.some_inj] at h
    rw [← h, hrun]
    exact strMk_ne_empty _ (by simpa using hne)
  · simp at h

theorem matchPrefixAlt_sound (l g1 r : List Char) (h : matchPrefixAlt l = some (g1, r)) :
    g1 ≠ [] := by
  unfold matchPrefixAlt at h
  split at h
  · rename_i p hp
    rw [Option.some_inj] at h
    rw [h] at hp
    unfold altP1 at hp
    split at hp
    · split at hp
      · rw [Option.some_inj, Prod.mk.injEq] at hp
        rw [← hp.1]
        exact List.cons_ne_nil _ _
      · simp at hp
    · simp at hp
  · split at h
    · rename_i p hp
      rw [Option.some_inj] at h
      rw [h] at hp
      unfold altP2 at hp
      split at hp
      · split at hp
        · rw [Option.some_inj, Prod.mk.injEq] at hp
          rw [← hp.1]
          exact List.cons_ne_nil _ _
        · simp at hp
      · simp at hp
    · split at h
      · rename_i p hp
        rw [Option.some_inj] at h
        rw [h] at hp
        unfold altP3 at hp
        split at hp
        · split at hp
          · rw [Option.some_inj, Prod.mk.injEq] at hp
            rw [← hp.1]
            exact List.cons_ne_nil _ _
          · simp at hp
        · simp at hp
      · split at h
        · rename_i p hp
          rw [Option.some_inj] at h
          rw [h] at hp
          unfold altP4 at hp
          split at hp
          · split at hp
            · rw [Option.some_inj, Prod.mk.injEq] at hp
              rw [← hp.1]
              exact List.cons_ne_nil _ _
            · simp at hp
          · simp at hp
        · split at h
          · rename_i p hp
            rw [Option.some_inj] at h
            rw [h] at hp
            unfold altP5 at hp
            split at hp
            · split at hp
              · rw [Option.some_inj, Prod.mk.injEq] at hp
                rw [← hp.1]
                exact List.cons_ne_nil _ _
              · simp at hp
            · simp at hp
          · split at h
            · rename_i p hp
              rw [Option.some_inj] at h
              rw [h] at hp
              unfold altP6 at hp
              split at hp
              · split at hp
                · rw [Option.some_inj, Prod.mk.injEq] at hp
                  rw [← hp.1]
                  exact List.cons_ne_nil _ _
                · simp at hp
              · simp at hp
            · unfold altP7 at h
              split at h
              · split at h
                · rw [Option.some_inj, Prod.mk.injEq] at h
                  rw [← h.1]
                  exact List.cons_ne_nil _ _
                · simp at h
              · simp at h

theorem matchPrefixRegexp_sound (s g1 g2 g3 : String)
    (h : matchPrefixRegexp s = some (g1, g2, g3)) : g1 ≠ "" ∧ s ≠ "" := by
  constructor
  · unfold matchPrefixRegexp at h
    split at h
    · simp at h
    · rename_i a r ha
      have hne := matchPrefixAlt_sound _ _ _ ha
      split at h
      · split at h
        · rw [Option.some_inj, Prod.mk.injEq] at h
          rw [← h.1]
          exact strMk_ne_empty _ hne
        · rw [Option.some_inj, Prod.mk.injEq] at h
          rw [← h.1]
          exact strMk_ne_empty _ hne
      · rw [Option.some_inj, Prod.mk.injEq] at h
        rw [← h.1]
        exact strMk_ne_empty _ hne
  · intro he
    rw [he] at h
    have hn : matchPrefixRegexp "" = none := by decide
    rw [hn] at h
    exact Option.noConfusion h

theorem strAppend_ne_empty_left (a b : String) (h : a ≠ "") : a ++ b ≠ "" := by
  cases a with
  | mk la =>
    cases b with
    | mk lb =>
      intro he
      have hl : la ++ lb = [] := congrArg String.data he
      have ha : la = [] := (List.append_eq_nil.mp hl).1
      exact h (by rw [ha])

theorem okS_some_of_ne (s : String) (h : s ≠ "") : okS (some s) :=
  fun he => h (Option.some_inj.mp he)

theorem processPrefix_call (t : String) (i : ParsedCallsign) :
    (processPrefix t i).call = i.call := by
  unfold processPrefix
  split
  · rfl
  · simp only []; split <;> (try split) <;> (try split) <;> simp

theorem processPrefix_baseCall (t : String) (i : ParsedCallsign) :
    (processPrefix t i).baseCall = i.baseCall := by
  unfold processPrefix
  split
  · rfl
  · simp only []; split <;> (try split) <;> (try split) <;> simp

theorem processPrefix_preindicator (t : String) (i : ParsedCallsign) :
    (processPrefix t i).preindicator = i.preindicator := by
  unfold processPrefix
  split
  · rfl
  · simp only []; split <;> (try split) <;> (try split) <;> simp

theorem processPrefix_postindicators (t : String) (i : ParsedCallsign) :
    (processPrefix t i).postindicators = i.postindicators := by
  unfold processPrefix
  split
  · rfl
  · simp only []; split <;> (try split) <;> (try split) <;> simp

theorem processPrefix_prefixOverride (t : String) (i : ParsedCallsign) :
    (processPrefix t i).prefixOverride = i.prefixOverride := by
  unfold processPrefix
  split
  · rfl
  · simp only []; split <;> (try split) <;> (try split) <;> simp

theorem processPrefix_indicators (t : String) (i : ParsedCallsign) :
    (processPrefix t i).indicators = i.indicators := by
  unfold processPrefix
  split
  · rfl
  · simp only []; split <;> (try split) <;> (try split) <;> simp

theorem processPrefix_ssid (t : String) (i : ParsedCallsign) :
    (processPrefix t i).ssid = i.ssid := by
  unfold processPrefix
  split
  · rfl
  · simp only []; split <;> (try split) <;> (try split) <;> simp

theorem processPrefix_ok (t : String) (i : ParsedCallsign)
    (hp : okS i.prefixStr) (hi : okS i.ituPrefix) :
    okS (processPrefix t i).prefixStr ∧ okS (processPrefix t i).ituPrefix := by
  unfold processPrefix
  split
  · exact ⟨hp, hi⟩
  · rename_i g1 g2 g3 hm
    obtain ⟨hg1, ht⟩ := matchPrefixRegexp_sound _ _ _ _ hm
    constructor <;>
      (simp only []; split <;> (try split) <;> (try split) <;>
        first
        | exact okS_some_of_ne _ ht
        | exact okS_some_of_ne _ (strAppend_ne_empty_left _ _ hg1)
        | exact okS_some_of_ne _ hg1
        | exact okS_some_of_ne _ (by decide))

theorem processPostindicator_call (t : String) (i : ParsedCallsign) :
    (processPostindicator t i).call = i.call := by
  unfold processPostindicator
  split
  · rfl
  · split
    · exact processPrefix_call _ _
    · split
      · rfl
      · split
        · exact processPrefix_call _ _
        · split
          · exact processPrefix_call _ _
          · rfl

theorem processPostindicator_baseCall (t : String) (i : ParsedCallsign) :
    (processPostindicator t i).baseCall = i.baseCall := by
  unfold processPostindicator
  split
  · rfl
  · split
    · exact processPrefix_baseCall _ _
    · split
      · rfl
      · split
        · exact processPrefix_baseCall _ _
        · split
          · exact processPrefix_baseCall _ _
          · rfl

theorem processPostindicator_preindicator (t : String) (i : ParsedCallsign) :
    (processPostindicator t i).preindicator = i.preindicator := by
  unfold processPostindicator
  split
  · rfl
  · split
    · exact processPrefix_preindicator _ _
    · split
      · rfl
      · split
        · exact processPrefix_preindicator _ _
        · split
          · exact processPrefix_preindicator _ _
          · rfl

theorem processPostindicator_postindicators (t : String) (i : ParsedCallsign) :
    (processPostindicator t i).postindicators = i.postindicators := by
  unfold processPostindicator
  split
  · rfl
  · split
    · exact processPrefix_postindicators _ _
    · split
      · rfl
      · split
        · exact processPrefix_postindicators _ _
        · split
          · exact processPrefix_postindicators _ _
          · rfl

theorem processPostindicator_ssid (t : String) (i : ParsedCallsign) :
    (processPostindicator t i).ssid = i.ssid := by
  unfold processPostindicator
  split
  · rfl
  · split
    · exact processPrefix_ssid _ _
    · split
      · rfl
      · split
        · exact processPrefix_ssid _ _
        · split
          · exact processPrefix_ssid _ _
          · rfl

theorem processPostindicator_ok (t : String) (i : ParsedCallsign)
    (hp : okS i.prefixStr) (hi : okS i.ituPrefix) (ho : okS i.prefixOverride) :
    okS (processPostindicator t i).prefixStr ∧ okS (processPostindicator t i).ituPrefix ∧
    okS (processPostindicator t i).prefixOverride := by
  unfold processPostindicator
  split
  · rename_i hd
    have ht : t ≠ "" := by
      intro he
      rw [he] at hd
      have hz : isAllDigits "" = false := by decide
      rw [hz] at hd
      simp at hd
    exact ⟨okS_some_of_ne _ (strAppend_ne_empty_right _ _ ht), hi, ho⟩
  · split
    · rename_i hs
      have ht : t ≠ "" := by
        intro he
        rw [he] at hs
        have hz : matchesSuffixedCountry "" = false := by decide
        rw [hz] at hs
        simp at hs
      obtain ⟨o1, o2⟩ := processPrefix_ok t { i with prefixOverride := some t } hp hi
      have f5 := processPrefix_prefixOverride t { i with prefixOverride := some t }
      refine ⟨o1, o2, ?_⟩
      rw [f5]
      exact okS_some_of_ne _ ht
    · split
      · exact ⟨hp, hi, ho⟩
      · split
        · rename_i hk
          have ht : t ≠ "" := by
            intro he
            rw [he] at hk
            have hz : KNOWN_ENTITIES "" = false := by decide
            rw [hz] at hk
            simp at hk
          obtain ⟨o1, o2⟩ := processPrefix_ok t { i with prefixOverride := some t } hp hi
          have f5 := processPrefix_prefixOverride t { i with prefixOverride := some t }
          refine ⟨o1, o2, ?_⟩
          rw [f5]
          exact okS_some_of_ne _ ht
        · split
          · rename_i hk
            have ht : t ≠ "" := by
              intro he
              rw [he] at hk
              have hz : KNOWN_ENTITIES ((processPrefix "" emptyInfo).ituPrefix.getD "") = false := by
                decide
              rw [hz] at hk
              simp at hk
            obtain ⟨o1, o2⟩ := processPrefix_ok t { i with prefixOverride := some t } hp hi
            have f5 := processPrefix_prefixOverride t { i with prefixOverride := some t }
            refine ⟨o1, o2, ?_⟩
            rw [f5]
            exact okS_some_of_ne _ ht
          · exact ⟨hp, hi, ho⟩

theorem foldPost_call (l : List String) : ∀ i : ParsedCallsign,
    (l.foldl (fun acc t => processPostindicator t acc) i).call = i.call := by
  induction l with
  | nil => intro i; rfl
  | cons x xs ih =>
    intro i
    exact (ih (processPostindicator x i)).trans (processPostindicator_call x i)

theorem foldPost_baseCall (l : List String) : ∀ i : ParsedCallsign,
    (l.foldl (fun acc t => processPostindicator t acc) i).baseCall = i.baseCall := by
  induction l with
  | nil => intro i; rfl
  | cons x xs ih =>
    intro i
    exact (ih (processPostindicator x i)).trans (processPostindicator_baseCall x i)

theorem foldPost_preindicator (l : List String) : ∀ i : ParsedCallsign,
    (l.foldl (fun acc t => processPostindicator t acc) i).preindicator = i.preindicator := by
  induction l with
  | nil => intro i; rfl
  | cons x xs ih =>
    intro i
    exact (ih (processPostindicator x i)).trans (processPostindicator_preindicator x i)

theorem foldPost_postindicators (l : List String) : ∀ i : ParsedCallsign,
    (l.foldl (fun acc t => processPostindicator t acc) i).postindicators = i.postindicators := by
  induction l with
  | nil => intro i; rfl
  | cons x xs ih =>
    intro i
    exact (ih (processPostindicator x i)).trans (processPostindicator_postindicators x i)

theorem foldPost_ssid (l : List String) : ∀ i : ParsedCallsign,
    (l.foldl (fun acc t => processPostindicator t acc) i).ssid = i.ssid := by
  induction l with
  | nil => intro i; rfl
  | cons x xs ih =>
    intro i
    exact (ih (processPostindicator x i)).trans (processPostindicator_ssid x i)

theorem foldPost_ok (l : List String) : ∀ i : ParsedCallsign,
    okS i.prefixStr → okS i.ituPrefix → okS i.prefixOverride →
    okS (l.foldl (fun acc t => processPostindicator t acc) i).prefixStr ∧
    okS (l.foldl (fun acc t => processPostindicator t acc) i).ituPrefix ∧
    okS (l.foldl (fun acc t => processPostindicator t acc) i).prefixOverride := by
  induction l with
  | nil => intro i hp hi ho; exact ⟨hp, hi, ho⟩
  | cons x xs ih =>
    intro i hp hi ho
    obtain ⟨p1, p2, p3⟩ := processPostindicator_ok x i hp hi ho
    exact ih (processPostindicator x i) p1 p2 p3

theorem applyMatch_call (cs2 : String) (parts : CallsignParts) (i : ParsedCallsign) :
    (applyMatch cs2 parts i).call = some cs2 := by
  unfold applyMatch
  cases hg1 : parts.g1 <;> cases hg4 : parts.g4 <;>
    simp only [hg1, hg4] <;>
    split <;> (try split) <;> (try split) <;>
    simp [processPrefix_call]

theorem applyMatch_ok (cs2 : String) (parts : CallsignParts) (i : ParsedCallsign)
    (h : callsignMatch cs2 = some parts)
    (hp : okS i.prefixStr) (hi : okS i.ituPrefix) (ho : okS i.prefixOverride)
    (hpre : okS i.preindicator) :
    okS (applyMatch cs2 parts i).baseCall ∧
    okS (applyMatch cs2 parts i).prefixStr ∧
    okS (applyMatch cs2 parts i).ituPrefix ∧
    okS (applyMatch cs2 parts i).prefixOverride ∧
    okS (applyMatch cs2 parts i).preindicator := by
  obtain ⟨hg2, hg1s⟩ := callsignMatch_sound _ _ h
  have hbc : okS (some (parts.g2 ++ parts.g3)) :=
    okS_some_of_ne _ (strAppend_ne_empty_left _ _ hg2)
  unfold applyMatch
  cases hg1 : parts.g1 with
  | none =>
    cases hg4 : parts.g4 <;>
      (simp only [hg1, hg4]
       rw [if_pos hg2]
       split
       · exact ⟨hpre, hp, hi, ho, fun hc => Option.noConfusion hc⟩
       · split
         · refine ⟨?_, (processPrefix_ok _ _ ?_ ?_).1, (processPrefix_ok _ _ ?_ ?_).2, ?_, ?_⟩
           · rw [processPrefix_baseCall]; exact hbc
           · exact hp
           · exact hi
           · exact hp
           · exact hi
           · rw [processPrefix_prefixOverride]; exact hpre
           · rw [processPrefix_preindicator]; exact hpre
         · refine ⟨?_, (processPrefix_ok _ _ ?_ ?_).1, (processPrefix_ok _ _ ?_ ?_).2, ?_, ?_⟩
           · rw [processPrefix_baseCall]; exact hbc
           · exact hp
           · exact hi
           · exact hp
           · exact hi
           · rw [processPrefix_prefixOverride]; exact ho
           · rw [processPrefix_preindicator]; exact hpre)
  | some p =>
    have hpd : okS (some (sliceDropLast p)) := okS_some_of_ne _ (hg1s p hg1)
    cases hg4 : parts.g4 <;>
      (simp only [hg1, hg4]
       rw [if_pos hg2]
       split
       · exact ⟨hpd, hp, hi, ho, fun hc => Option.noConfusion hc⟩
       · split
         · refine ⟨?_, (processPrefix_ok _ _ ?_ ?_).1, (processPrefix_ok _ _ ?_ ?_).2, ?_, ?_⟩
           · rw [processPrefix_baseCall]; exact hbc
           · exact hp
           · exact hi
           · exact hp
           · exact hi
           · rw [processPrefix_prefixOverride]; exact hpd
           · rw [processPrefix_preindicator]; exact hpd
         · refine ⟨?_, (processPrefix_ok _ _ ?_ ?_).1, (processPrefix_ok _ _ ?_ ?_).2, ?_, ?_⟩
           · rw [processPrefix_baseCall]; exact hbc
           · exact hp
           · exact hi
           · exact hp
           · exact hi
           · rw [processPrefix_prefixOverride]; exact ho
           · rw [processPrefix_preindicator]; exact hpd)

theorem okS_none : okS none := fun h => Option.noConfusion h

theorem callsignMatch_empty : callsignMatch "" = none := by decide

theorem applyMatch_ssid (cs2 : String) (parts : CallsignParts) (i : ParsedCallsign) :
    (applyMatch cs2 parts i).ssid = i.ssid := by
  unfold applyMatch
  cases hg1 : parts.g1 <;> cases hg4 : parts.g4 <;>
    simp only [hg1, hg4] <;>
    split <;> (try split) <;> (try split) <;>
    simp [processPrefix_ssid]

theorem applySsid_empty (cs1 : String) :
    applySsid cs1 emptyInfo = { emptyInfo with ssid := ssidValue cs1 } := by
  unfold applySsid
  split
  · rename_i h
    rw [h]
  · rename_i h
    rw [h]
    rfl

/-- Unfolding equation for `parseCallsign` on a non-null argument. -/
theorem parseCallsign_some (x : String) (info : ParsedCallsign) :
    parseCallsign (some x) info =
      if x = "" then info
      else
        match callsignMatch (ssidStripped (jsNormalize x)) with
        | none => applySsid (jsNormalize x) info
        | some parts =>
          runPostindicators (applyMatch (ssidStripped (jsNormalize x)) parts
            (applySsid (jsNormalize x) info)) := rfl

/-- A record freshly parsed into an empty accumulator never holds a
set-but-empty string in any field other than `digit`. -/
theorem parse_ok (x : String) :
    okS (parseCallsign (some x) emptyInfo).call ∧
    okS (parseCallsign (some x) emptyInfo).baseCall ∧
    okS (parseCallsign (some x) emptyInfo).prefixStr ∧
    okS (parseCallsign (some x) emptyInfo).ituPrefix ∧
    okS (parseCallsign (some x) emptyInfo).preindicator ∧
    okS (parseCallsign (some x) emptyInfo).prefixOverride ∧
    okS (parseCallsign (some x) emptyInfo).ssid := by
  rw [parseCallsign_some]
  by_cases hx : x = ""
  · rw [if_pos hx]
    exact ⟨okS_none, okS_none, okS_none, okS_none, okS_none, okS_none, okS_none⟩
  · rw [if_neg hx]
    cases hm : callsignMatch (ssidStripped (jsNormalize x)) with
    | none =>
      rw [applySsid_empty]
      refine ⟨okS_none, okS_none, okS_none, okS_none, okS_none, okS_none, ?_⟩
      show okS (ssidValue (jsNormalize x))
      cases hv : ssidValue (jsNormalize x) with
      | none => exact okS_none
      | some v => exact okS_some_of_ne _ (ssidValue_ok _ _ hv)
    | some parts =>
      rw [applySsid_empty]
      have hcs : ssidStripped (jsNormalize x) ≠ "" := by
        intro he
        rw [he, callsignMatch_empty] at hm
        exact Option.noConfusion hm
      obtain ⟨b1, p1, i1, o1, pre1⟩ :=
        applyMatch_ok (ssidStripped (jsNormalize x)) parts
          { emptyInfo with ssid := ssidValue (jsNormalize x) } hm okS_none okS_none okS_none
          okS_none
      unfold runPostindicators
      refine ⟨?_, ?_, ?_, ?_, ?_, ?_, ?_⟩
      · rw [foldPost_call, applyMatch_call]
        exact okS_some_of_ne _ hcs
      · rw [foldPost_baseCall]
        exact b1
      · exact (foldPost_ok _ _ p1 i1 o1).1
      · exact (foldPost_ok _ _ p1 i1 o1).2.1
      · rw [foldPost_preindicator]
        exact pre1
      · exact (foldPost_ok _ _ p1 i1 o1).2.2
      · rw [foldPost_ssid, applyMatch_ssid]
        show okS (ssidValue (jsNormalize x))
        cases hv : ssidValue (jsNormalize x) with
        | none => exact okS_none
        | some v => exact okS_some_of_ne _ (ssidValue_ok _ _ hv)

/-! # Claim theorems -/

/-- C1 counterexample: the input `"-1"` does not match the callsign grammar
(after SSID stripping nothing is left), yet `parseCallsign` returns a record
with the `ssid` field set — not a record with no fields set. -/
theorem C1_counterexample :
    callsignMatch (ssidStripped (jsNormalize "-1")) = none ∧
    (parseCallsign (some "-1") emptyInfo).ssid = some "1" ∧
    parseCallsign (some "-1") emptyInfo ≠ emptyInfo := by decide

/-- C1 (amended): for every input that does not match the callsign grammar
(after normalization and SSID stripping), parse with a fresh empty
accumulator returns a record in which every field except `ssid` is unset;
`ssid` is set exactly when the input contained an SSID suffix, which is
extracted before the grammar is consulted. -/
theorem C1_amended (s : String)
    (h : callsignMatch (ssidStripped (jsNormalize s)) = none) :
    (parseCallsign (some s) emptyInfo).call = none ∧
    (parseCallsign (some s) emptyInfo).baseCall = none ∧
    (parseCallsign (some s) emptyInfo).prefixStr = none ∧
    (parseCallsign (some s) emptyInfo).extendedPrefix = none ∧
    (parseCallsign (some s) emptyInfo).ituPrefix = none ∧
    (parseCallsign (some s) emptyInfo).digit = none ∧
    (parseCallsign (some s) emptyInfo).preindicator = none ∧
    (parseCallsign (some s) emptyInfo).postindicators = none ∧
    (parseCallsign (some s) emptyInfo).prefixOverride = none ∧
    (parseCallsign (some s) emptyInfo).indicators = none ∧
    (parseCallsign (some s) emptyInfo).ssid = ssidValue (jsNormalize s) := by
  rw [parseCallsign_some]
  by_cases hx : s = ""
  · rw [if_pos hx]
    subst hx
    exact ⟨rfl, rfl, rfl, rfl, rfl, rfl, rfl, rfl, rfl, rfl, rfl⟩
  · rw [if_neg hx, h, applySsid_empty]
    exact ⟨rfl, rfl, rfl, rfl, rfl, rfl, rfl, rfl, rfl, rfl, rfl⟩

theorem C1_witness :
    (parseCallsign (some "-1") emptyInfo).call = none ∧
    (parseCallsign (some "-1") emptyInfo).ssid = ssidValue (jsNormalize "-1") :=
  ⟨(C1_amended "-1" (by decide)).1,
   (C1_amended "-1" (by decide)).2.2.2.2.2.2.2.2.2.2⟩

/-- C2 counterexample: `processPrefix "5UA7"` yields `ituPrefix = "5U"` and
`digit = "7"` (both set) with no entity-table match, yet
`prefix = "5UA7" ≠ "5U" ++ "7"` — the Niger special case truncates
`ituPrefix` after `prefix` was computed. -/
theorem C2_counterexample :
    KNOWN_ENTITIES (jsToUpperStr "5UA7") = false ∧
    (processPrefix "5UA7" emptyInfo).ituPrefix = some "5U" ∧
    (processPrefix "5UA7" emptyInfo).digit = some "7" ∧
    (processPrefix "5UA7" emptyInfo).prefixStr = some "5UA7" ∧
    ("5UA7" : String) ≠ "5U" ++ "7" := by decide

/-- C2 (amended): whenever the prefix regex matches with entity letters `g1`
and separating digit `g2`, the token is not an exact Entity Table hit, and
the Niger exception does not truncate (`g1` does not start with `5U`, or is
exactly `5U`), the record produced by `processPrefix` has `ituPrefix = g1`,
`digit = g2` and `prefix = g1 ++ g2` — i.e. `prefix = ituPrefix + digit`. -/
theorem C2_amended (token : String) (info : ParsedCallsign) (g1 g2 g3 : String)
    (h1 : matchPrefixRegexp token = some (g1, g2, g3))
    (h2 : KNOWN_ENTITIES (jsToUpperStr token) = false)
    (h3 : startsWith5U g1 = false ∨ g1 = "5U") :
    (processPrefix token info).ituPrefix = some g1 ∧
    (processPrefix token info).digit = some g2 ∧
    (processPrefix token info).prefixStr = some (g1 ++ g2) := by
  rcases h3 with h3 | h3
  · simp only [processPrefix, h1, h2, h3, Bool.false_eq_true, if_false]
    split <;> simp
  · subst h3
    have h5 : startsWith5U "5U" = true := by decide
    simp only [processPrefix, h1, h2, h5, Bool.false_eq_true, if_false, if_true]
    split <;> simp

theorem C2_witness :
    matchPrefixRegexp "KD2" = some ("KD", "2", "") ∧
    (processPrefix "KD2" emptyInfo).prefixStr = some ("KD" ++ "2") :=
  ⟨by decide,
   (C2_amended "KD2" emptyInfo "KD" "2" "" (by decide) (by decide) (Or.inl (by decide))).2.2⟩

/-- C3 counterexample: merging a fresh result whose `digit` is the empty
string (set, per the claim) into a destination that had `digit` and
`extendedPrefix` deletes `digit` instead of copying the empty string, and
leaves `extendedPrefix` in place instead of deleting it —
`extendedPrefix` is not in the canonical key list and an empty-string digit
is falsy. -/
theorem C3_counterexample :
    ({ digit := some "" } : ParsedCallsign).digit = some "" ∧
    (mergeCallsignInfo { digit := some "0", extendedPrefix := some "X" }
        { digit := some "" }).digit = none ∧
    ({ digit := some "" } : ParsedCallsign).extendedPrefix = none ∧
    (mergeCallsignInfo { digit := some "0", extendedPrefix := some "X" }
        { digit := some "" }).extendedPrefix = some "X" := by decide

/-- C3 (amended): for each field in the canonical key list — which excludes
`extendedPrefix`, left exactly as in the destination — the merge copies the
fresh value when it is JS-truthy (a non-empty string, or any array) and
otherwise leaves the field absent; in particular an empty-string `digit`
counts as not set and is deleted. -/
theorem C3_amended (b n : ParsedCallsign) :
    mergeCallsignInfo b n =
      { call := if jsTruthyStr n.call then n.call else none
        baseCall := if jsTruthyStr n.baseCall then n.baseCall else none
        prefixStr := if jsTruthyStr n.prefixStr then n.prefixStr else none
        extendedPrefix := b.extendedPrefix
        ituPrefix := if jsTruthyStr n.ituPrefix then n.ituPrefix else none
        digit := if jsTruthyStr n.digit then n.digit else none
        preindicator := if jsTruthyStr n.preindicator then n.preindicator else none
        postindicators := n.postindicators
        prefixOverride := if jsTruthyStr n.prefixOverride then n.prefixOverride else none
        indicators := n.indicators
        ssid := if jsTruthyStr n.ssid then n.ssid else none } :=
  mergeCallsignInfo_eq b n

/-- C9: parsing `"N0CALL"` into an empty accumulator yields exactly
`call = "N0CALL"`, `baseCall = "N0CALL"`, `prefix = "N0"`,
`ituPrefix = "N"`, `digit = "0"`, and no other field. -/
theorem C9_holds :
    parseCallsign (some "N0CALL") emptyInfo =
      { call := some "N0CALL", baseCall := some "N0CALL", prefixStr := some "N0",
        ituPrefix := some "N", digit := some "0" } := by decide

/-- C10: calling parse with a null/undefined (modelled as `none`) or
empty-string callsign returns the accumulator with no field added, removed
or changed. -/
theorem C10_holds (info : ParsedCallsign) :
    parseCallsign none info = info ∧ parseCallsign (some "") info = info :=
  ⟨rfl, rfl⟩

/-- C4 counterexample: for `"AB-1/N0CALL"` the SSID match `-1` sits in the
middle of the string, not at its end; parse removes it and sets
`call = "AB/N0CALL"`, which differs from the spec's normalization
(trim + uppercase + trailing-SSID strip) of the input. -/
theorem C4_counterexample :
    (parseCallsign (some "AB-1/N0CALL") emptyInfo).call = some "AB/N0CALL" ∧
    specNormalize "AB-1/N0CALL" = "AB-1/N0CALL" ∧
    ("AB/N0CALL" : String) ≠ "AB-1/N0CALL" := by decide

/-- C4 (amended): whenever `parse(s).call` is set, it equals the trimmed,
uppercased input with the *first* SSID match (a `-` followed by the maximal
run of alphanumerics/hyphens, wherever it occurs) removed; this coincides
with trailing-SSID stripping only when that match reaches the end of the
string. -/
theorem C4_amended (s c : String)
    (h : (parseCallsign (some s) emptyInfo).call = some c) :
    c = ssidStripped (jsNormalize s) := by
  rw [parseCallsign_some] at h
  by_cases hx : s = ""
  · rw [if_pos hx] at h
    exact Option.noConfusion h
  · rw [if_neg hx] at h
    cases hm : callsignMatch (ssidStripped (jsNormalize s)) with
    | none =>
      simp only [hm, applySsid_empty] at h
      exact Option.noConfusion h
    | some parts =>
      simp only [hm] at h
      unfold runPostindicators at h
      rw [foldPost_call, applyMatch_call] at h
      exact (Option.some_inj.mp h).symm

theorem C4_witness :
    (parseCallsign (some "N0CALL") emptyInfo).call = some "N0CALL" ∧
    "N0CALL" = ssidStripped (jsNormalize "N0CALL") :=
  ⟨by decide, C4_amended "N0CALL" "N0CALL" (by decide)⟩

theorem foldDigit_last (ts : List String) : ∀ i : ParsedCallsign,
    (∀ x ∈ ts, isAllDigits x = true) → ts ≠ [] →
    (ts.foldl (fun acc b => processPostindicator b acc) i).digit = ts.getLast? := by
  induction ts with
  | nil => intro i _ h3; exact absurd rfl h3
  | cons x xs ih =>
    intro i h4 _
    cases xs with
    | nil =>
      have hx := h4 x (by simp)
      have hlast : ([x] : List String).getLast? = some x := by simp
      rw [hlast, List.foldl_cons, List.foldl_nil]
      unfold processPostindicator
      rw [if_pos hx]
    | cons y ys =>
      have hx := h4 x (by simp)
      have h4m : ∀ z ∈ y :: ys, isAllDigits z = true :=
        fun z hz => h4 z (List.mem_cons_of_mem _ hz)
      have hne : (y :: ys : List String) ≠ [] := by simp
      have hres := ih (processPostindicator x i) h4m hne
      rw [List.foldl_cons]
      have hlast : (x :: y :: ys : List String).getLast? = (y :: ys : List String).getLast? := by
        simp
      rw [hlast]
      exact hres

/-- C6: an all-digits post-indicator leaves `ituPrefix` unchanged, replaces
`digit` with the token, and recomputes `prefix` as `ituPrefix` concatenated
with the token; folding any nonempty sequence of digit-only tokens leaves
`digit` equal to the last one. -/
theorem C6_holds (i : ParsedCallsign) (t s : String) (ts : List String)
    (h1 : isAllDigits t = true) (h2 : i.ituPrefix = some s) (h3 : ts ≠ [])
    (h4 : ∀ x ∈ ts, isAllDigits x = true) :
    (processPostindicator t i).ituPrefix = some s ∧
    (processPostindicator t i).digit = some t ∧
    (processPostindicator t i).prefixStr = some (s ++ t) ∧
    (ts.foldl (fun acc b => processPostindicator b acc) i).digit = ts.getLast? := by
  refine ⟨?_, ?_, ?_, foldDigit_last ts i h4 h3⟩
  · unfold processPostindicator
    rw [if_pos h1]
    exact h2
  · unfold processPostindicator
    rw [if_pos h1]
  · unfold processPostindicator
    rw [if_pos h1]
    show some (jsUndefStr i.ituPrefix ++ t) = some (s ++ t)
    rw [h2]
    rfl

theorem C6_witness :
    ((["1", "2"] : List String).foldl (fun acc b => processPostindicator b acc)
        { ituPrefix := some "N" }).digit = some "2" ∧
    (processPostindicator "9" { ituPrefix := some "N" }).prefixStr = some ("N" ++ "9") :=
  ⟨(C6_holds { ituPrefix := some "N" } "9" "N" ["1", "2"] (by decide) rfl (by decide)
      (by decide)).2.2.2.trans (by decide),
   (C6_holds { ituPrefix := some "N" } "9" "N" ["1", "2"] (by decide) rfl (by decide)
      (by decide)).2.2.1⟩

/-- C8 counterexample: re-parse plus double merge does not reproduce a fresh
parse: for `"N0123CALL"` the fresh parse has `extendedPrefix` set but the
merge never copies it (not in the key list); for `"5UAAA"` the fresh parse
has `digit = ""` (set but falsy) which the merge deletes. -/
theorem C8_counterexample :
    (parseCallsign (some "N0123CALL") emptyInfo).extendedPrefix = some "N0123" ∧
    mergeCallsignInfo (mergeCallsignInfo emptyInfo (parseCallsign (some "N0123CALL") emptyInfo))
        (parseCallsign (some "N0123CALL") emptyInfo) ≠
      parseCallsign (some "N0123CALL") emptyInfo ∧
    (parseCallsign (some "5UAAA") emptyInfo).digit = some "" ∧
    mergeCallsignInfo (mergeCallsignInfo emptyInfo (parseCallsign (some "5UAAA") emptyInfo))
        (parseCallsign (some "5UAAA") emptyInfo) ≠
      parseCallsign (some "5UAAA") emptyInfo := by decide

/-- C8 (amended): merging a fresh parse twice always equals merging it once;
and the merged record equals the fresh parse itself provided the fresh
parse's `digit` is not the empty string and the accumulator's
`extendedPrefix` agrees with the fresh parse's (every other string field a
fresh parse sets is non-empty, and `extendedPrefix` is carried over from the
accumulator by the merge). -/
theorem C8_amended (acc : ParsedCallsign) (x : String) :
    mergeCallsignInfo (mergeCallsignInfo acc (parseCallsign (some x) emptyInfo))
        (parseCallsign (some x) emptyInfo) =
      mergeCallsignInfo acc (parseCallsign (some x) emptyInfo) ∧
    ((parseCallsign (some x) emptyInfo).digit ≠ some "" →
      acc.extendedPrefix = (parseCallsign (some x) emptyInfo).extendedPrefix →
      mergeCallsignInfo acc (parseCallsign (some x) emptyInfo) =
        parseCallsign (some x) emptyInfo) := by
  have hok := parse_ok x
  generalize hr : parseCallsign (some x) emptyInfo = r at hok ⊢
  obtain ⟨o1, o2, o3, o4, o5, o6, o7⟩ := hok
  constructor
  · rw [mergeCallsignInfo_eq acc r, mergeCallsignInfo_eq]
  · intro hd he
    rw [mergeCallsignInfo_eq acc r, okS_if_truthy _ o1, okS_if_truthy _ o2, okS_if_truthy _ o3,
      he, okS_if_truthy _ o4, okS_if_truthy _ hd, okS_if_truthy _ o5, okS_if_truthy _ o6,
      okS_if_truthy _ o7]

theorem C8_witness :
    (parseCallsign (some "N0CALL") emptyInfo).digit ≠ some "" ∧
    emptyInfo.extendedPrefix = (parseCallsign (some "N0CALL") emptyInfo).extendedPrefix ∧
    mergeCallsignInfo emptyInfo (parseCallsign (some "N0CALL") emptyInfo) =
      parseCallsign (some "N0CALL") emptyInfo :=
  ⟨by decide, by decide, (C8_amended emptyInfo "N0CALL").2 (by decide) (by decide)⟩

/-- C5: whenever the grammar matches with a pre-indicator present and the
computed base call is an exact Entity Table hit, the returned record uses
the pre-indicator as `baseCall`, appends the original base-call string to
`postindicators`, retains no `preindicator`, and the pre-indicator is not
used as a prefix source (the state entering the post-indicator loop has no
prefix fields set at all); concretely, `"K0H/KH0"` parses to
`baseCall = "K0H"`, `prefix = "KH0"`, `postindicators = ["KH0"]` with no
preindicator. -/
theorem C5_holds (s p : String) (parts : CallsignParts)
    (h1 : callsignMatch (ssidStripped (jsNormalize s)) = some parts)
    (h2 : parts.g1 = some p)
    (h3 : KNOWN_ENTITIES (parts.g2 ++ parts.g3) = true) :
    (parseCallsign (some s) emptyInfo).baseCall = some (sliceDropLast p) ∧
    (parseCallsign (some s) emptyInfo).preindicator = none ∧
    (parseCallsign (some s) emptyInfo).postindicators =
      some (postsOfOpt parts.g4 ++ [parts.g2 ++ parts.g3]) ∧
    (applyMatch (ssidStripped (jsNormalize s)) parts
        (applySsid (jsNormalize s) emptyInfo)).prefixStr = none ∧
    (applyMatch (ssidStripped (jsNormalize s)) parts
        (applySsid (jsNormalize s) emptyInfo)).ituPrefix = none ∧
    (applyMatch (ssidStripped (jsNormalize s)) parts
        (applySsid (jsNormalize s) emptyInfo)).digit = none ∧
    (applyMatch (ssidStripped (jsNormalize s)) parts
        (applySsid (jsNormalize s) emptyInfo)).prefixOverride = none ∧
    parseCallsign (some "K0H/KH0") emptyInfo =
      { call := some "K0H/KH0", baseCall := some "K0H", prefixStr := some "KH0",
        ituPrefix := some "KH", digit := some "0", postindicators := some ["KH0"],
        prefixOverride := some "KH0" } := by
  have hs : s ≠ "" := by
    intro he
    rw [he] at h1
    have hz : callsignMatch (ssidStripped (jsNormalize "")) = none := by decide
    rw [hz] at h1
    exact Option.noConfusion h1
  obtain ⟨hg2, hg1s⟩ := callsignMatch_sound _ _ h1
  have hpd : sliceDropLast p ≠ "" := hg1s p h2
  have htr : jsTruthyStr (some (sliceDropLast p)) = true := by
    simp [jsTruthyStr, hpd]
  have hst : applyMatch (ssidStripped (jsNormalize s)) parts
      (applySsid (jsNormalize s) emptyInfo) =
      { call := some (ssidStripped (jsNormalize s)),
        baseCall := some (sliceDropLast p),
        postindicators := some (postsOfOpt parts.g4 ++ [parts.g2 ++ parts.g3]),
        ssid := ssidValue (jsNormalize s) } := by
    rw [applySsid_empty]
    unfold applyMatch
    cases hg4 : parts.g4 with
    | none =>
      simp only [h2, hg4]
      rw [if_pos hg2]
      rw [if_pos (show (KNOWN_ENTITIES (parts.g2 ++ parts.g3) &&
        jsTruthyStr (some (sliceDropLast p))) = true by simp [h3, htr])]
      simp [postsOfOpt, emptyInfo]
    | some q =>
      simp only [h2, hg4]
      rw [if_pos hg2]
      rw [if_pos (show (KNOWN_ENTITIES (parts.g2 ++ parts.g3) &&
        jsTruthyStr (some (sliceDropLast p))) = true by simp [h3, htr])]
      simp [postsOfOpt, emptyInfo]
  have hparse : parseCallsign (some s) emptyInfo =
      runPostindicators (applyMatch (ssidStripped (jsNormalize s)) parts
        (applySsid (jsNormalize s) emptyInfo)) := by
    rw [parseCallsign_some, if_neg hs]
    simp only [h1]
  refine ⟨?_, ?_, ?_, ?_, ?_, ?_, ?_, by decide⟩
  · rw [hparse]
    unfold runPostindicators
    rw [foldPost_baseCall, hst]
  · rw [hparse]
    unfold runPostindicators
    rw [foldPost_preindicator, hst]
  · rw [hparse]
    unfold runPostindicators
    rw [foldPost_postindicators, hst]
  · rw [hst]
  · rw [hst]
  · rw [hst]
  · rw [hst]

theorem C5_witness :
    (parseCallsign (some "AA7V/VP2V") emptyInfo).baseCall = some (sliceDropLast "AA7V/") ∧
    (parseCallsign (some "AA7V/VP2V") emptyInfo).preindicator = none :=
  ⟨(C5_holds "AA7V/VP2V" "AA7V/" ⟨some "AA7V/", "VP2", "V", none⟩ (by decide) rfl
      (by decide)).1,
   (C5_holds "AA7V/VP2V" "AA7V/" ⟨some "AA7V/", "VP2", "V", none⟩ (by decide) rfl
      (by decide)).2.1⟩

theorem processPrefix_fields_congr (t : String) (i : ParsedCallsign)
    (hp : i.prefixStr = none) (hi : i.ituPrefix = none) (hd : i.digit = none)
    (he : i.extendedPrefix = none) :
    (processPrefix t i).prefixStr = (processPrefix t emptyInfo).prefixStr ∧
    (processPrefix t i).ituPrefix = (processPrefix t emptyInfo).ituPrefix ∧
    (processPrefix t i).digit = (processPrefix t emptyInfo).digit ∧
    (processPrefix t i).extendedPrefix = (processPrefix t emptyInfo).extendedPrefix := by
  unfold processPrefix
  split
  · exact ⟨hp, hi, hd, he⟩
  · refine ⟨?_, ?_, ?_, ?_⟩ <;>
      (simp only []; split <;> (try split) <;> (try split) <;> simp [hp, hi, hd, he, emptyInfo])

/-- C7 counterexample: for `"AA7V/VP2V"` the grammar matches with the
pre-indicator `"AA7V"` present, yet (the base call being an Entity Table
hit) the state entering the post-indicator loop has no prefix resolved and
`prefixOverride` unset — the pre-indicator did not determine the initial
prefix. -/
theorem C7_counterexample :
    callsignMatch (ssidStripped (jsNormalize "AA7V/VP2V")) =
      some ⟨some "AA7V/", "VP2", "V", none⟩ ∧
    (applyMatch (ssidStripped (jsNormalize "AA7V/VP2V")) ⟨some "AA7V/", "VP2", "V", none⟩
        (applySsid (jsNormalize "AA7V/VP2V") emptyInfo)).prefixStr = none ∧
    (applyMatch (ssidStripped (jsNormalize "AA7V/VP2V")) ⟨some "AA7V/", "VP2", "V", none⟩
        (applySsid (jsNormalize "AA7V/VP2V") emptyInfo)).prefixOverride = none := by decide

/-- C7 (amended): for every input that matches the grammar, except the
misplaced-entity correction case (base call an exact Entity Table hit with a
pre-indicator present), exactly one of the two resolves the initial prefix
state before post-indicators are processed: when a pre-indicator is present
the prefix fields equal those produced by resolving the pre-indicator alone
and `prefixOverride` is set to it; otherwise they equal those produced by
resolving the base call alone and `prefixOverride` stays unset.  (The
resolver may leave the prefix unset when the token has no prefix shape.) -/
theorem C7_amended (s : String) (parts : CallsignParts)
    (h1 : callsignMatch (ssidStripped (jsNormalize s)) = some parts)
    (h2 : ¬(KNOWN_ENTITIES (parts.g2 ++ parts.g3) = true ∧ parts.g1.isSome = true)) :
    (∀ p, parts.g1 = some p →
      (applyMatch (ssidStripped (jsNormalize s)) parts
          (applySsid (jsNormalize s) emptyInfo)).prefixOverride = some (sliceDropLast p) ∧
      (applyMatch (ssidStripped (jsNormalize s)) parts
          (applySsid (jsNormalize s) emptyInfo)).prefixStr =
        (processPrefix (sliceDropLast p) emptyInfo).prefixStr ∧
      (applyMatch (ssidStripped (jsNormalize s)) parts
          (applySsid (jsNormalize s) emptyInfo)).ituPrefix =
        (processPrefix (sliceDropLast p) emptyInfo).ituPrefix ∧
      (applyMatch (ssidStripped (jsNormalize s)) parts
          (applySsid (jsNormalize s) emptyInfo)).digit =
        (processPrefix (sliceDropLast p) emptyInfo).digit ∧
      (applyMatch (ssidStripped (jsNormalize s)) parts
          (applySsid (jsNormalize s) emptyInfo)).extendedPrefix =
        (processPrefix (sliceDropLast p) emptyInfo).extendedPrefix) ∧
    (parts.g1 = none →
      (applyMatch (ssidStripped (jsNormalize s)) parts
          (applySsid (jsNormalize s) emptyInfo)).prefixOverride = none ∧
      (applyMatch (ssidStripped (jsNormalize s)) parts
          (applySsid (jsNormalize s) emptyInfo)).prefixStr =
        (processPrefix (parts.g2 ++ parts.g3) emptyInfo).prefixStr ∧
      (applyMatch (ssidStripped (jsNormalize s)) parts
          (applySsid (jsNormalize s) emptyInfo)).ituPrefix =
        (processPrefix (parts.g2 ++ parts.g3) emptyInfo).ituPrefix ∧
      (applyMatch (ssidStripped (jsNormalize s)) parts
          (applySsid (jsNormalize s) emptyInfo)).digit =
        (processPrefix (parts.g2 ++ parts.g3) emptyInfo).digit ∧
      (applyMatch (ssidStripped (jsNormalize s)) parts
          (applySsid (jsNormalize s) emptyInfo)).extendedPrefix =
        (processPrefix (parts.g2 ++ parts.g3) emptyInfo).extendedPrefix) := by
  obtain ⟨hg2, hg1s⟩ := callsignMatch_sound _ _ h1
  constructor
  · intro p hp
    have hpd : sliceDropLast p ≠ "" := hg1s p hp
    have htr : jsTruthyStr (some (sliceDropLast p)) = true := by
      simp [jsTruthyStr, hpd]
    have hknown : KNOWN_ENTITIES (parts.g2 ++ parts.g3) = false := by
      cases hk : KNOWN_ENTITIES (parts.g2 ++ parts.g3)
      · rfl
      · exact absurd ⟨hk, by rw [hp]; rfl⟩ h2
    rw [applySsid_empty]
    unfold applyMatch
    cases hg4 : parts.g4 with
    | none =>
      simp only [hp, hg4]
      rw [if_pos hg2]
      rw [if_neg (show ¬(KNOWN_ENTITIES (parts.g2 ++ parts.g3) &&
        jsTruthyStr (some (sliceDropLast p))) = true by simp [hknown])]
      rw [if_pos htr]
      refine ⟨?_, ?_, ?_, ?_, ?_⟩
      · simp [processPrefix_prefixOverride, emptyInfo]
      · exact (processPrefix_fields_congr _ _ rfl rfl rfl rfl).1
      · exact (processPrefix_fields_congr _ _ rfl rfl rfl rfl).2.1
      · exact (processPrefix_fields_congr _ _ rfl rfl rfl rfl).2.2.1
      · exact (processPrefix_fields_congr _ _ rfl rfl rfl rfl).2.2.2
    | some q =>
      simp only [hp, hg4]
      rw [if_pos hg2]
      rw [if_neg (show ¬(KNOWN_ENTITIES (parts.g2 ++ parts.g3) &&
        jsTruthyStr (some (sliceDropLast p))) = true by simp [hknown])]
      rw [if_pos htr]
      refine ⟨?_, ?_, ?_, ?_, ?_⟩
      · simp [processPrefix_prefixOverride, emptyInfo]
      · exact (processPrefix_fields_congr _ _ rfl rfl rfl rfl).1
      · exact (processPrefix_fields_congr _ _ rfl rfl rfl rfl).2.1
      · exact (processPrefix_fields_congr _ _ rfl rfl rfl rfl).2.2.1
      · exact (processPrefix_fields_congr _ _ rfl rfl rfl rfl).2.2.2
  · intro hnone
    rw [applySsid_empty]
    unfold applyMatch
    cases hg4 : parts.g4 with
    | none =>
      simp only [hnone, hg4]
      rw [if_pos hg2]
      rw [if_neg (show ¬(KNOWN_ENTITIES (parts.g2 ++ parts.g3) &&
        jsTruthyStr ({ emptyInfo with
          call := some (ssidStripped (jsNormalize s)),
          ssid := ssidValue (jsNormalize s) } : ParsedCallsign).preindicator) = true by
        simp [jsTruthyStr, emptyInfo])]
      rw [if_neg (show ¬jsTruthyStr ({ emptyInfo with
          call := some (ssidStripped (jsNormalize s)),
          ssid := ssidValue (jsNormalize s) } : ParsedCallsign).preindicator = true by
        simp [jsTruthyStr, emptyInfo])]
      refine ⟨?_, ?_, ?_, ?_, ?_⟩
      · simp [processPrefix_prefixOverride, emptyInfo]
      · exact (processPrefix_fields_congr _ _ rfl rfl rfl rfl).1
      · exact (processPrefix_fields_congr _ _ rfl rfl rfl rfl).2.1
      · exact (processPrefix_fields_congr _ _ rfl rfl rfl rfl).2.2.1
      · exact (processPrefix_fields_congr _ _ rfl rfl rfl rfl).2.2.2
    | some q =>
      simp only [hnone, hg4]
      rw [if_pos hg2]
      rw [if_neg (show ¬(KNOWN_ENTITIES (parts.g2 ++ parts.g3) &&
        jsTruthyStr ({ emptyInfo with
          call := some (ssidStripped (jsNormalize s)),
          postindicators := some (splitSlashes (sliceDropFirst q)),
          ssid := ssidValue (jsNormalize s) } : ParsedCallsign).preindicator) = true by
        simp [jsTruthyStr, emptyInfo])]
      rw [if_neg (show ¬jsTruthyStr ({ emptyInfo with
          call := some (ssidStripped (jsNormalize s)),
          postindicators := some (splitSlashes (sliceDropFirst q)),
          ssid := ssidValue (jsNormalize s) } : ParsedCallsign).preindicator = true by
        simp [jsTruthyStr, emptyInfo])]
      refine ⟨?_, ?_, ?_, ?_, ?_⟩
      · simp [processPrefix_prefixOverride, emptyInfo]
      · exact (processPrefix_fields_congr _ _ rfl rfl rfl rfl).1
      · exact (processPrefix_fields_congr _ _ rfl rfl rfl rfl).2.1
      · exact (processPrefix_fields_congr _ _ rfl rfl rfl rfl).2.2.1
      · exact (processPrefix_fields_congr _ _ rfl rfl rfl rfl).2.2.2

theorem C7_witness :
    (applyMatch (ssidStripped (jsNormalize "YV5/N0CALL")) ⟨some "YV5/", "N0", "CALL", none⟩
        (applySsid (jsNormalize "YV5/N0CALL") emptyInfo)).prefixOverride = some "YV5" ∧
    (applyMatch (ssidStripped (jsNormalize "YV5/N0CALL")) ⟨some "YV5/", "N0", "CALL", none⟩
        (applySsid (jsNormalize "YV5/N0CALL") emptyInfo)).prefixStr =
      (processPrefix "YV5" emptyInfo).prefixStr :=
  ⟨((C7_amended "YV5/N0CALL" ⟨some "YV5/", "N0", "CALL", none⟩ (by decide)
      (by decide)).1 "YV5/" rfl).1.trans (by decide),
   ((C7_amended "YV5/N0CALL" ⟨some "YV5/", "N0", "CALL", none⟩ (by decide)
      (by decide)).1 "YV5/" rfl).2.1.trans (by decide)⟩
